import Mathlib

/-!
Verification of the Note Ingestion & Reporting Pipeline of the
randyren278/Ledcor repository.

The development shallowly embeds the TypeScript/JavaScript source:

* JS strings are modelled as `List Char` (`JStr`) where character-level
  operations (trim, split on whitespace) matter, and as Lean `String`
  elsewhere.
* Wall-clock instants (`Date.now()`, `new Date().toISOString()`) are
  modelled as an explicit `now : Nat` parameter threaded through every
  operation; ISO-8601 timestamps are identified with their
  milliseconds-since-epoch value.
* The in-memory store `db.projects : Record<string, Project>` is modelled
  as an association list `DB := List (String × Project)`.
* `undefined`/missing JS values are `Option.none`; JS truthiness of
  strings/numbers is modelled explicitly (`""` and `0` are falsy).
* The external transcription process is modelled by the observable
  behaviour of one spawned run (exit time in ms, exit code, parsed
  stdout, stderr); promise settlement picks the first event, as the JS
  promise does.

Two variants of the upload handler and of the data layer exist in the
repository (`pages/api/upload.ts` and the unnamed `part_004`/`part_005`
files, `lib/data.ts` and the unnamed `part_006` file); both are embedded
where they differ.
-/

namespace Ledcor

/-! ### JS string primitives on `List Char` -/

/-- A JS string, modelled as its list of characters. -/
abbrev JStr := List Char

/-- Whitespace test used by JS `trim` and the regex `\s`. -/
def isWs (c : Char) : Bool := c.isWhitespace

/-- Leading-whitespace removal, the left half of JS `String.prototype.trim`. -/
def trimLeft : JStr → JStr
  | [] => []
  | c :: cs => if isWs c then trimLeft cs else c :: cs

/-- Trailing-whitespace removal, the right half of JS `String.prototype.trim`. -/
def trimRight : JStr → JStr
  | [] => []
  | c :: cs =>
    let r := trimRight cs
    if r = [] ∧ isWs c then [] else c :: r

/-- JS `String.prototype.trim`: drop leading and trailing whitespace. -/
def jsTrim (s : JStr) : JStr := trimRight (trimLeft s)

/-- Split a string at every single whitespace character, keeping the
(possibly empty) chunks between them.  `splitOnWs s` always has one more
chunk than `s` has whitespace characters. -/
def splitOnWs : JStr → List JStr
  | [] => [[]]
  | c :: cs =>
    if isWs c then [] :: splitOnWs cs
    else
      match splitOnWs cs with
      | [] => [[c]]
      | h :: t => (c :: h) :: t

/-- The whitespace-delimited tokens of a string: its maximal runs of
non-whitespace characters, i.e. the non-empty chunks of `splitOnWs`. -/
def wsTokens (s : JStr) : List JStr :=
  (splitOnWs s).filter (fun w => w ≠ [])

/-- JS `t.split(/\s+/)` for a string `t` that is already trimmed: the
regex eats each maximal whitespace run, so the result is the list of
maximal non-whitespace runs — except that JS `"".split(/\s+/)` is
`[""]`, not `[]`. -/
def jsSplitWsRuns (t : JStr) : List JStr :=
  if t = [] then [[]] else wsTokens t

/-! ### The two `createNote` summary rules

`pages/api/upload.ts` (`createNote`, lines 168–170):

    const summary = transcriptionResult.text && transcriptionResult.text.length > 100
      ? `${transcriptionResult.text.substring(0, 100)}...`
      : transcriptionResult.text || 'Audio note recorded';

`part_004` (`createNote`, lines 80–86):

    let summary = 'Audio note recorded';
    if (transcriptionResult.text) {
      const words = transcriptionResult.text.trim().split(/\s+/);
      summary = words.slice(0, 10).join(' ');
      if (words.length > 10) summary += '…';
    }
-/

/-- Summary rule of `createNote` in `pages/api/upload.ts`: truncate the
raw text at 100 characters, appending `"..."`; fall back to the literal
when the text is absent or empty (both falsy in JS). -/
def summaryChars_upload (text : Option JStr) : JStr :=
  match text with
  | none => "Audio note recorded".data
  | some t =>
    if 100 < t.length then t.take 100 ++ "...".data
    else if t = [] then "Audio note recorded".data
    else t

/-- Summary rule of `createNote` in `part_004`: first 10 words of the
trimmed text, joined by single spaces, `"…"` appended when there are
more than 10 words; the fall-back literal when the text is absent or
empty. -/
def summaryChars_part004 (text : Option JStr) : JStr :=
  match text with
  | none => "Audio note recorded".data
  | some t =>
    if t = [] then "Audio note recorded".data
    else
      let words := jsSplitWsRuns (jsTrim t)
      let s := List.intercalate [' '] (words.take 10)
      if 10 < words.length then s ++ "…".data else s

/-- Modelled from the spec (§4.3): the summary is the first 10
whitespace-delimited tokens of the text joined by single spaces, with an
ellipsis appended when the text has more than 10 tokens, and the literal
`"Audio note recorded"` when the text is empty or absent. -/
def specSummaryChars (text : Option JStr) : JStr :=
  match text with
  | none => "Audio note recorded".data
  | some t =>
    if t = [] then "Audio note recorded".data
    else
      let toks := wsTokens t
      if 10 < toks.length then
        List.intercalate [' '] (toks.take 10) ++ "…".data
      else
        List.intercalate [' '] toks

/-! ### Data model (`types/index.ts`, structured transcription output) -/

/-- The structured output of the transcription boundary
(`types/index.ts` / §6): `{ success, text?, language?,
language_probability?, duration?, error? }`.  `language_probability`
and `duration` are JS numbers, modelled as rationals. -/
structure TranscriptionResult where
  success : Bool
  text : Option String := none
  language : Option String := none
  language_probability : Option ℚ := none
  duration : Option ℚ := none
  error : Option String := none
deriving DecidableEq

/-- A `Note` (`types/index.ts`).  ISO timestamps are modelled as
milliseconds-since-epoch; the unused `text` field of the TS interface is
kept because the data layer's demo note and `searchNotes` read it. -/
structure Note where
  id : String
  timestamp : Nat
  text : Option String := none
  audio : Option String := none
  images : Option (List String) := none
  transcription : Option String := none
  summary : Option String := none
  duration : Option ℤ := none
  language : Option String := none
  insights : Option (List String) := none
deriving DecidableEq, Inhabited

/-- A `Project` (`types/index.ts`); the purely cosmetic `color` field is
never touched by the data layer and is omitted. -/
structure Project where
  id : String
  name : String
  description : Option String := none
  notes : List Note := []
  createdAt : Nat
  lastActivity : Nat
deriving DecidableEq

/-! ### JS value helpers -/

/-- JS `a || d` for an optional string `a`: the default wins when `a` is
`undefined` or the (falsy) empty string. -/
def jsStrOr (a : Option String) (d : String) : String :=
  match a with
  | some s => if s = "" then d else s
  | none => d

/-- JS `Math.round` on a (finite) number: floor of `q + 1/2`. -/
def jsRound (q : ℚ) : ℤ := (q + 1/2).floor

/-- JS `d ? Math.round(d) : 0` for an optional number `d`
(`undefined` and `0` are falsy). -/
def jsRoundOrZero (d : Option ℚ) : ℤ :=
  match d with
  | some q => if q ≠ 0 then jsRound q else 0
  | none => 0

/-- JS `d ? Math.round(d) : undefined` for an optional number `d`. -/
def jsRoundOrUndef (d : Option ℚ) : Option ℤ :=
  match d with
  | some q => if q ≠ 0 then some (jsRound q) else none
  | none => none

/-- Split a character list at every `/`. -/
def splitOnSlash : List Char → List (List Char)
  | [] => [[]]
  | c :: cs =>
    if c = '/' then [] :: splitOnSlash cs
    else
      match splitOnSlash cs with
      | [] => [[c]]
      | h :: t => (c :: h) :: t

/-- JS `path.basename`: the last `/`-separated component. -/
def basename (p : String) : String :=
  String.mk ((splitOnSlash p.data).getLastD p.data)

/-! ### Insights (`createNote` in both upload handler variants)

Both variants build, in this order,

    `Duration: ${duration ? Math.round(duration) : 0}s`
    `Language: ${language || 'unknown'}`
    `Confidence: ${language_probability ? Math.round(language_probability * 100) : 0}%`

and `part_004` appends a fourth, environment-dependent provenance entry.
-/

/-- Insights of `createNote` in `pages/api/upload.ts` (lines 181–185):
exactly the three fixed entries. -/
def insights_upload (r : TranscriptionResult) : List String :=
  [ "Duration: " ++ toString (jsRoundOrZero r.duration) ++ "s",
    "Language: " ++ jsStrOr r.language "unknown",
    "Confidence: " ++ toString (jsRoundOrZero (r.language_probability.map (· * 100))) ++ "%" ]

/-- Insights of `createNote` in `part_004` (lines 97–104): the same
three entries followed by an unconditional provenance entry chosen by
the `isProd` environment flag. -/
def insights_part004 (isProd : Bool) (r : TranscriptionResult) : List String :=
  [ "Duration: " ++ toString (jsRoundOrZero r.duration) ++ "s",
    "Language: " ++ jsStrOr r.language "unknown",
    "Confidence: " ++ toString (jsRoundOrZero (r.language_probability.map (· * 100))) ++ "%",
    if isProd then "Note: fallback transcription (production)"
    else "Processed with AI transcription (development)" ]

/-! ### `createNote` (both upload handler variants) -/

/-- `createNote` of `pages/api/upload.ts` (lines 159–189).  `Date.now()`
and `new Date()` are the single instant `now`. -/
def createNote_upload (now : Nat) (audioPath : String) (imagePaths : List String)
    (r : TranscriptionResult) : Note :=
  { id := toString now
    timestamp := now
    audio := some (basename audioPath)
    images := some (imagePaths.map basename)
    transcription := some (jsStrOr r.text "")
    language := some (jsStrOr r.language "unknown")
    summary := some (String.mk (summaryChars_upload (r.text.map String.data)))
    duration := jsRoundOrUndef r.duration
    insights := some (insights_upload r) }

/-- `createNote` of `part_004` (lines 71–107). -/
def createNote_part004 (now : Nat) (isProd : Bool) (audioPath : String)
    (imagePaths : List String) (r : TranscriptionResult) : Note :=
  { id := toString now
    timestamp := now
    audio := some (basename audioPath)
    images := some (imagePaths.map basename)
    transcription := some (jsStrOr r.text "")
    language := some (jsStrOr r.language "unknown")
    summary := some (String.mk (summaryChars_part004 (r.text.map String.data)))
    duration := jsRoundOrUndef r.duration
    insights := some (insights_part004 isProd r) }

/-! ### The Project Store (`lib/data.ts` and `part_006`)

The mutation operations on an existing project are textually identical
in the two data-layer variants (`part_006` only adds a `saveToDisk()`
write-behind); they are embedded once.  The two variants differ in
`getProject`, which is embedded twice.
-/

/-- The store `db.projects : Record<string, Project>`. -/
abbrev DB := List (String × Project)

/-- `db.projects[id]` as a read. -/
def dbLookup (db : DB) (id : String) : Option Project :=
  (db.find? (fun e => e.1 = id)).map (·.2)

/-- `db.projects[id] = p` as a write: replace the binding, or append a
fresh one. -/
def dbSet : DB → String → Project → DB
  | [], id, p => [(id, p)]
  | e :: rest, id, p => if e.1 = id then (id, p) :: rest else e :: dbSet rest id p

/-- `getProject` of `lib/data.ts` (lines 9–20): auto-creates a
placeholder project for an unknown id, then reads it back. -/
def getProject_data (now : Nat) (db : DB) (id : String) : Option Project × DB :=
  let db' :=
    if (dbLookup db id).isSome then db
    else dbSet db id
      { id := id, name := "Project " ++ id, notes := []
        createdAt := now, lastActivity := now }
  (dbLookup db' id, db')

/-- `getProject` of `part_006` (lines 119–121): plain lookup, `null`
for an unknown id. -/
def getProject_part006 (db : DB) (id : String) : Option Project :=
  dbLookup db id

/-- `createProject` (`lib/data.ts` lines 26–39): the generated id is
passed in explicitly (`generateId()` mixes `Date.now()` and
`Math.random()`). -/
def createProject (now : Nat) (db : DB) (fresh : String) (name : String)
    (description : Option String) : Project × DB :=
  let p : Project :=
    { id := fresh, name := name, description := description, notes := []
      createdAt := now, lastActivity := now }
  (p, dbSet db fresh p)

/-- `addNoteToProject` (`lib/data.ts` lines 62–70, `part_006` lines
175–186): fail on an unknown project, otherwise append the note and
refresh `lastActivity` in the same write. -/
def addNoteToProject (now : Nat) (db : DB) (projectId : String) (note : Note) :
    Option Project × DB :=
  match dbLookup db projectId with
  | none => (none, db)
  | some p =>
    let p' := { p with notes := p.notes ++ [note], lastActivity := now }
    (some p', dbSet db projectId p')

/-- `removeNoteFromProject` (`lib/data.ts` lines 72–83, `part_006`
lines 188–202): fail on an unknown project or note id (before any
mutation), otherwise splice the note out and refresh `lastActivity`. -/
def removeNoteFromProject (now : Nat) (db : DB) (projectId noteId : String) :
    Option Project × DB :=
  match dbLookup db projectId with
  | none => (none, db)
  | some p =>
    match p.notes.findIdx? (fun n => n.id = noteId) with
    | none => (none, db)
    | some i =>
      let p' := { p with notes := p.notes.eraseIdx i, lastActivity := now }
      (some p', dbSet db projectId p')

/-- `updateNote` (`lib/data.ts` lines 85–100, `part_006` lines
204–225): the `Partial<Note>` spread `{...existingNote, ...updates}` is
modelled as an arbitrary per-note update function. -/
def updateNote (now : Nat) (db : DB) (projectId noteId : String)
    (upd : Note → Note) : Option Note × DB :=
  match dbLookup db projectId with
  | none => (none, db)
  | some p =>
    match p.notes.findIdx? (fun n => n.id = noteId) with
    | none => (none, db)
    | some i =>
      let n' := upd (p.notes.getD i default)
      let p' := { p with notes := p.notes.set i n', lastActivity := now }
      (some n', dbSet db projectId p')

/-- `getNote` (`lib/data.ts` lines 102–107). -/
def getNote (db : DB) (projectId noteId : String) : Option Note :=
  match dbLookup db projectId with
  | none => none
  | some p => p.notes.find? (fun n => n.id = noteId)

/-- The store invariant of §3: every stored project has
`createdAt ≤ lastActivity`. -/
def StoreWF (db : DB) : Prop := ∀ e ∈ db, e.2.createdAt ≤ e.2.lastActivity

instance (db : DB) : Decidable (StoreWF db) :=
  inferInstanceAs (Decidable (∀ e ∈ db, e.2.createdAt ≤ e.2.lastActivity))

/-- All stored creation instants are at or before the current instant
(monotonicity of the wall clock). -/
def CreatedLe (db : DB) (now : Nat) : Prop := ∀ e ∈ db, e.2.createdAt ≤ now

instance (db : DB) (now : Nat) : Decidable (CreatedLe db now) :=
  inferInstanceAs (Decidable (∀ e ∈ db, e.2.createdAt ≤ now))

/-- Atomicity of a store step: every project binding is either exactly
as before, or carries `lastActivity = now`. -/
def RefreshedOrUnchanged (db db' : DB) (now : Nat) : Prop :=
  ∀ j, dbLookup db' j = dbLookup db j ∨
    ∃ q, dbLookup db' j = some q ∧ q.lastActivity = now

/-! ### The ingestion handlers (`pages/api/upload.ts` and `part_004`)

Each handler is a pure function of the parsed request, the store, the
clock, and the settled outcomes of its external effects; the third
component of the result records whether the external transcription
process was invoked on that run.
-/

/-- A file stored by the multer middleware: its path and whether
`fs.existsSync` finds it. -/
structure UploadedFile where
  path : String
  existsOnDisk : Bool
deriving DecidableEq

/-- The parsed multipart request as the handlers see it:
`req.body.projectId` / `req.body.transcription` when they are strings,
`parseFloat(req.body.duration)` when the field is truthy, and the
`req.files` arrays. -/
structure UploadReq where
  projectId : Option String
  bodyTranscription : Option String
  bodyDuration : Option ℚ
  audio : Option UploadedFile
  images : List UploadedFile
deriving DecidableEq

/-- Settled outcome of the `transcribeAudio` promise as awaited by the
handler. -/
inductive TrOutcome
  | ok (r : TranscriptionResult)
  | err (msg : String)
deriving DecidableEq

/-- Settled outcome of the PDF-generation promise: the resolved string
(report URL in `upload.ts`, base64 bytes in `part_004`) or a rejection. -/
inductive PdfOutcome
  | ok (value : String)
  | err (msg : String)
deriving DecidableEq

/-- The handler's response: 400 / 404 / 500 errors, or the 200 body
`{ ok: true, note, reportUrl | pdfBase64 }` (the report field is always
present, the empty string when generation failed). -/
inductive UploadResp
  | badRequest (msg : String)
  | notFound (msg : String)
  | serverError (msg : String)
  | ok (note : Note) (report : String)
deriving DecidableEq

/-- The POST handler of `pages/api/upload.ts` (lines 276–383): reject a
missing, non-string, or falsy (empty) `projectId`
(`!projectId || typeof projectId !== 'string'`), look the project up via
the auto-creating `getProject`, require the audio file, always invoke
the external transcription, synthesize the note, append it, then
best-effort PDF generation.  `req.body.transcription` is never read. -/
def handlerPost_upload (now : Nat) (db : DB) (req : UploadReq)
    (tr : TrOutcome) (pdf : PdfOutcome) : UploadResp × DB × Bool :=
  match req.projectId with
  | none => (.badRequest "Project ID is required and must be a string", db, false)
  | some pid =>
    if pid = "" then
      (.badRequest "Project ID is required and must be a string", db, false)
    else
      match getProject_data now db pid with
      | (none, db1) => (.notFound "Project not found", db1, false)
      | (some _project, db1) =>
        match req.audio with
        | none => (.badRequest "Audio file is required", db1, false)
        | some audioFile =>
          if audioFile.existsOnDisk then
            match tr with
            | .err e => (.serverError e, db1, true)
            | .ok r =>
              let note := createNote_upload now audioFile.path (req.images.map (·.path)) r
              match addNoteToProject now db1 pid note with
              | (none, db2) => (.serverError "Failed to add note to project", db2, true)
              | (some _, db2) =>
                let reportUrl :=
                  match pdf with
                  | .ok _ => "/reports/" ++ note.id ++ ".pdf"
                  | .err _ => ""
                (.ok note reportUrl, db2, true)
          else (.serverError "Uploaded audio file not found", db1, false)

/-- The synthetic transcription result of `part_004` (lines 221–229):
`success: true`, `language: 'en'`, probability 1, the client-supplied
transcript (or `''` when the field is not a string), the parsed client
duration.  No external process is involved. -/
def clientTranscriptionResult (bodyTranscription : Option String)
    (bodyDuration : Option ℚ) : TranscriptionResult :=
  { success := true
    language := some "en"
    language_probability := some 1
    text := some (bodyTranscription.getD "")
    duration := bodyDuration }

/-- The POST handler of `part_004` (lines 198–264): same shape as
`upload.ts`, including the rejection of a missing, non-string, or falsy
(empty) `projectId` (line 201), but the project check is the
non-creating `getProject` of its sibling data layer `part_006`, the
transcription result is the synthetic client-supplied one, and the
external process is never invoked. -/
def handlerPost_part004 (now : Nat) (isProd : Bool) (db : DB) (req : UploadReq)
    (pdf : PdfOutcome) : UploadResp × DB × Bool :=
  match req.projectId with
  | none => (.badRequest "Project ID is required", db, false)
  | some pid =>
    if pid = "" then (.badRequest "Project ID is required", db, false)
    else
      match getProject_part006 db pid with
      | none => (.notFound "Project not found", db, false)
      | some _project =>
        match req.audio with
        | none => (.badRequest "Audio file is required", db, false)
        | some audioFile =>
          if audioFile.existsOnDisk then
            let transcriptionResult :=
              clientTranscriptionResult req.bodyTranscription req.bodyDuration
            let note := createNote_part004 now isProd audioFile.path
              (req.images.map (·.path)) transcriptionResult
            match addNoteToProject now db pid note with
            | (none, db2) => (.serverError "Failed to attach note to project", db2, false)
            | (some _, db2) =>
              let pdfBase64 :=
                match pdf with
                | .ok v => v
                | .err _ => ""
              (.ok note pdfBase64, db2, false)
          else (.serverError "Uploaded audio not found on disk", db, false)

/-! ### Claim C5 — the external-process timeout

The external transcription process is modelled by the observable
behaviour of one spawned run; the promise settles with the first event
(close before the timer, or the timer).
-/

/-- One spawned transcription run: when (ms after spawn) the process
exits and with which code, if ever; the parse of its accumulated stdout
as a structured result (`none` = unparsable); its accumulated stderr. -/
structure ProcRun where
  exit : Option (Nat × Int)
  parsed : Option TranscriptionResult
  stderr : String
deriving DecidableEq

/-- The state of the `transcribeAudio` promise after the run. -/
inductive TransSettle
  | resolved (r : TranscriptionResult)
  | rejected (msg : String)
  | pending
deriving DecidableEq

/-- The 5-minute timer bound of `upload.ts` (`5 * 60 * 1000` ms). -/
def timeoutMs : Nat := 5 * 60 * 1000

/-- Did the process exit strictly before the given instant? -/
def completedBefore (run : ProcRun) (limit : Nat) : Bool :=
  match run.exit with
  | some (t, _) => t < limit
  | none => false

/-- The `close`-event handler of `upload.ts` `transcribeAudio` (lines
128–144): exit code 0 with a parsed `success` result resolves; a parsed
non-success rejects with its reported error (or the fallback literal);
unparsable stdout rejects; a non-zero exit code rejects with the
captured stderr. -/
def closeOutcome_upload (code : Int) (run : ProcRun) : TransSettle :=
  if code = 0 then
    match run.parsed with
    | some r =>
      if r.success then .resolved r
      else .rejected (jsStrOr r.error "Transcription failed")
    | none => .rejected "Failed to parse transcription result"
  else
    .rejected ("Transcription failed with code " ++ toString code ++ ": " ++ run.stderr)

/-- The `close`-event handler of `part_005` `transcribeAudio` (lines
60–75): identical shape, but a non-success result rejects with
`new Error(result.error)` directly. -/
def closeOutcome_part005 (code : Int) (run : ProcRun) : TransSettle :=
  if code = 0 then
    match run.parsed with
    | some r =>
      if r.success then .resolved r
      else .rejected (r.error.getD "")
    | none => .rejected "Failed to parse transcription result"
  else
    .rejected ("Transcription failed with code " ++ toString code ++ ": " ++ run.stderr)

/-- `transcribeAudio` of `pages/api/upload.ts` (lines 91–156): the
promise settles with the close event iff the process exits strictly
before the 5-minute timer; otherwise the timer rejects with the timeout
error and `kill()`s the process.  The second component records whether
the external process is still running afterwards: never, because the
timer always fires and kills a process that has not exited. -/
def transcribeAudio_upload (run : ProcRun) : TransSettle × Bool :=
  match run.exit with
  | some (t, code) =>
    if t < timeoutMs then (closeOutcome_upload code run, false)
    else (.rejected "Transcription timed out after 5 minutes", false)
  | none => (.rejected "Transcription timed out after 5 minutes", false)

/-- `transcribeAudio` of `part_005` (lines 32–81): no timer at all —
the promise settles only when the process exits, whenever that is, and
nothing ever kills the process (it is left running iff it never exits). -/
def transcribeAudio_part005 (run : ProcRun) : TransSettle × Bool :=
  match run.exit with
  | some (_, code) => (closeOutcome_part005 code run, false)
  | none => (.pending, true)

/-! ### Trim-invariance of whitespace tokenisation -/

theorem splitOnWs_ne_nil (s : JStr) : splitOnWs s ≠ [] := by
  cases s with
  | nil => simp [splitOnWs]
  | cons c cs =>
    simp only [splitOnWs]
    by_cases h : isWs c
    · simp [h]
    · simp only [h]
      cases splitOnWs cs <;> simp

theorem wsTokens_trimLeft (s : JStr) : wsTokens (trimLeft s) = wsTokens s := by
  induction s with
  | nil => rfl
  | cons c cs ih =>
    by_cases h : isWs c
    · simpa [trimLeft, h, wsTokens, splitOnWs] using ih
    · simp [trimLeft, h]

theorem trimRight_eq_nil_all_ws (s : JStr) (h : trimRight s = []) :
    ∀ c ∈ s, isWs c := by
  induction s with
  | nil => simp
  | cons c cs ih =>
    simp only [trimRight] at h
    by_cases hc : trimRight cs = [] ∧ isWs c
    · intro x hx
      rcases List.mem_cons.mp hx with rfl | hx
      · exact hc.2
      · exact ih hc.1 x hx
    · simp [if_neg hc] at h

theorem wsTokens_all_ws (s : JStr) (h : ∀ c ∈ s, isWs c) : wsTokens s = [] := by
  induction s with
  | nil => rfl
  | cons c cs ih =>
    have hc : isWs c := h c (List.mem_cons_self c cs)
    have := ih (fun x hx => h x (List.mem_cons_of_mem c hx))
    simpa [wsTokens, splitOnWs, hc] using this

theorem wsTokens_trimRight_aux (s : JStr) :
    (splitOnWs (trimRight s)).headD [] = (splitOnWs s).headD [] ∧
      wsTokens (trimRight s) = wsTokens s := by
  induction s with
  | nil => exact ⟨rfl, rfl⟩
  | cons c cs ih =>
    by_cases hc : isWs c
    · by_cases hr : trimRight cs = []
      · have hall : ∀ x ∈ cs, isWs x := trimRight_eq_nil_all_ws cs hr
        have htoks : wsTokens cs = [] := wsTokens_all_ws cs hall
        constructor
        · simp [trimRight, hr, hc, splitOnWs]
        · simp [trimRight, hr, hc, wsTokens, splitOnWs]
          simpa [wsTokens] using htoks.symm
      · have hcond : ¬(trimRight cs = [] ∧ isWs c) := fun h => hr h.1
        constructor
        · simp [trimRight, hcond, hr, splitOnWs, hc]
        · have := ih.2
          simp [trimRight, hcond, hr, wsTokens, splitOnWs, hc]
          simpa [wsTokens] using this
    · have hcond : ¬(trimRight cs = [] ∧ isWs c) := fun h => hc h.2
      obtain ⟨h₁, t₁, hht⟩ : ∃ h₁ t₁, splitOnWs (trimRight cs) = h₁ :: t₁ := by
        cases hx : splitOnWs (trimRight cs) with
        | nil => exact absurd hx (splitOnWs_ne_nil _)
        | cons a b => exact ⟨a, b, rfl⟩
      obtain ⟨h₂, t₂, hht₂⟩ : ∃ h₂ t₂, splitOnWs cs = h₂ :: t₂ := by
        cases hx : splitOnWs cs with
        | nil => exact absurd hx (splitOnWs_ne_nil _)
        | cons a b => exact ⟨a, b, rfl⟩
      have hhead : h₁ = h₂ := by
        have := ih.1
        rw [hht, hht₂] at this
        simpa using this
      have htail : List.filter (fun w => w ≠ []) t₁ = List.filter (fun w => w ≠ []) t₂ := by
        have := ih.2
        simp only [wsTokens, hht, hht₂, hhead] at this
        by_cases hh : h₂ = []
        · simpa [hh] using this
        · simp only [List.filter_cons] at this
          rw [if_pos (by simpa using hh), if_pos (by simpa using hh)] at this
          exact List.cons_injective.eq_iff.mp this
      simp only [ne_eq, decide_not] at htail
      constructor
      · simp [trimRight, hcond, splitOnWs, hc, hht, hht₂, hhead]
      · simp [trimRight, hcond, wsTokens, splitOnWs, hc, hht, hht₂, hhead, htail]

theorem wsTokens_jsTrim (s : JStr) : wsTokens (jsTrim s) = wsTokens s := by
  unfold jsTrim
  rw [(wsTokens_trimRight_aux (trimLeft s)).2, wsTokens_trimLeft]

/-- C1, amended: the `part_004` `createNote` summary equals the spec's
summary rule — first 10 whitespace-delimited tokens of the text joined
by single spaces, an ellipsis appended when the text has more than 10
tokens, the literal `"Audio note recorded"` when the text is empty or
absent.  (The `pages/api/upload.ts` `createNote` instead truncates the
raw text at 100 characters; see the counterexample.) -/
theorem part004_summary_matches_spec (text : Option JStr) :
    summaryChars_part004 text = specSummaryChars text := by
  cases text with
  | none => rfl
  | some t =>
    by_cases ht : t = []
    · simp [summaryChars_part004, specSummaryChars, ht]
    · simp only [summaryChars_part004, specSummaryChars, if_neg ht]
      by_cases htr : jsTrim t = []
      · have h0 : wsTokens t = [] := by
          rw [← wsTokens_jsTrim, htr]; rfl
        rw [htr, h0]
        simp [jsSplitWsRuns, List.intercalate]
      · have hw : jsSplitWsRuns (jsTrim t) = wsTokens t := by
          rw [jsSplitWsRuns, if_neg htr, wsTokens_jsTrim]
        rw [hw]
        by_cases hlen : 10 < (wsTokens t).length
        · simp [hlen]
        · simp [hlen, List.take_of_length_le (Nat.le_of_not_lt hlen)]

/-- C1, counterexample: on the 11-token, 21-character text
`"a b c d e f g h i j k"` the `pages/api/upload.ts` `createNote`
summary (100-character truncation) is the whole text, not the first 10
tokens with an ellipsis that the claim prescribes. -/
theorem upload_summary_violates_spec :
    summaryChars_upload (some "a b c d e f g h i j k".data) ≠
      specSummaryChars (some "a b c d e f g h i j k".data) := by decide

/-! ### Claim C7 — the insights list -/

/-- C7, counterexample: in a non-degraded environment (`isProd = false`)
the `part_004` `createNote` still emits a fourth provenance entry, so
the insights list has 4 entries, not the exactly 3 the claim prescribes
outside degraded/fallback mode. -/
theorem part004_insights_always_four :
    (insights_part004 false
        { success := true, text := some "hello", language := some "en",
          language_probability := some 1, duration := some 5 }).length ≠ 3 := by
  decide

/-- C7, amended: both `createNote` variants emit the three fixed
entries Duration, Language, Confidence in that order;
`pages/api/upload.ts` emits exactly these three, while `part_004`
always appends a fourth provenance entry — production:
`"Note: fallback transcription (production)"`, otherwise
`"Processed with AI transcription (development)"` — in degraded and
non-degraded environments alike. -/
theorem insights_fixed_entries (isProd : Bool) (r : TranscriptionResult) :
    (insights_upload r).length = 3 ∧
    (insights_part004 isProd r).length = 4 ∧
    insights_part004 isProd r =
      insights_upload r ++
        [if isProd then "Note: fallback transcription (production)"
         else "Processed with AI transcription (development)"] :=
  ⟨rfl, rfl, rfl⟩

/-! ### Claim C8 — note id uniqueness -/

/-- C8 (supporting theorem for the code bug): the note id is
`Date.now().toString()`, so two distinct notes synthesized in the same
millisecond receive the same id — id assignment is not injective across
the process lifetime. -/
theorem note_ids_collide_same_millisecond :
    (createNote_upload 1700000000000 "a.webm" []
        { success := true, text := some "first" }).id =
      (createNote_upload 1700000000000 "b.webm" []
        { success := true, text := some "second" }).id ∧
    createNote_upload 1700000000000 "a.webm" []
        { success := true, text := some "first" } ≠
      createNote_upload 1700000000000 "b.webm" []
        { success := true, text := some "second" } := by
  exact ⟨rfl, by decide⟩

/-! ### Store lemmas -/

theorem dbSet_nil (id : String) (p : Project) : dbSet [] id p = [(id, p)] := rfl

theorem dbSet_cons (e : String × Project) (rest : DB) (id : String) (p : Project) :
    dbSet (e :: rest) id p =
      if e.1 = id then (id, p) :: rest else e :: dbSet rest id p := rfl

theorem dbLookup_nil (j : String) : dbLookup [] j = none := rfl

theorem dbLookup_cons (e : String × Project) (rest : DB) (j : String) :
    dbLookup (e :: rest) j = if e.1 = j then some e.2 else dbLookup rest j := by
  by_cases h : e.1 = j
  · rw [if_pos h]
    unfold dbLookup
    rw [List.find?_cons_of_pos _ (by simpa using h)]
    rfl
  · rw [if_neg h]
    unfold dbLookup
    rw [List.find?_cons_of_neg _ (by simpa using h)]

theorem dbLookup_dbSet_self (db : DB) (id : String) (p : Project) :
    dbLookup (dbSet db id p) id = some p := by
  induction db with
  | nil => rw [dbSet_nil, dbLookup_cons]; simp
  | cons e rest ih =>
    rw [dbSet_cons]
    by_cases h : e.1 = id
    · rw [if_pos h, dbLookup_cons]; simp
    · rw [if_neg h, dbLookup_cons, if_neg h, ih]

theorem dbLookup_dbSet_ne (db : DB) (id j : String) (p : Project) (h : j ≠ id) :
    dbLookup (dbSet db id p) j = dbLookup db j := by
  induction db with
  | nil =>
    rw [dbSet_nil, dbLookup_cons]
    simp [Ne.symm h]
  | cons e rest ih =>
    rw [dbSet_cons]
    by_cases he : e.1 = id
    · rw [if_pos he, dbLookup_cons, dbLookup_cons]
      simp [he, Ne.symm h]
    · rw [if_neg he, dbLookup_cons, dbLookup_cons, ih]

theorem mem_dbSet (db : DB) (id : String) (p : Project) (e : String × Project)
    (he : e ∈ dbSet db id p) : e = (id, p) ∨ e ∈ db := by
  induction db with
  | nil => simpa [dbSet] using he
  | cons f rest ih =>
    by_cases h : f.1 = id
    · simp only [dbSet, if_pos h] at he
      rcases List.mem_cons.mp he with rfl | he'
      · exact Or.inl rfl
      · exact Or.inr (List.mem_cons_of_mem f he')
    · simp only [dbSet, if_neg h] at he
      rcases List.mem_cons.mp he with rfl | he'
      · exact Or.inr (List.mem_cons_self e rest)
      · rcases ih he' with h' | h'
        · exact Or.inl h'
        · exact Or.inr (List.mem_cons_of_mem f h')

theorem dbLookup_mem (db : DB) (id : String) (p : Project)
    (h : dbLookup db id = some p) : ∃ e ∈ db, e.1 = id ∧ e.2 = p := by
  unfold dbLookup at h
  cases hf : db.find? (fun e => e.1 = id) with
  | none => rw [hf] at h; simp at h
  | some e =>
    rw [hf] at h
    refine ⟨e, List.mem_of_find?_eq_some hf, ?_, ?_⟩
    · simpa using List.find?_some hf
    · simpa using h

theorem storeWF_dbSet (db : DB) (id : String) (p : Project)
    (h : StoreWF db) (hp : p.createdAt ≤ p.lastActivity) :
    StoreWF (dbSet db id p) := by
  intro e he
  rcases mem_dbSet db id p e he with rfl | he'
  · exact hp
  · exact h e he'

theorem refreshedOrUnchanged_dbSet (db : DB) (id : String) (p : Project)
    (hp : p.lastActivity = now) : RefreshedOrUnchanged db (dbSet db id p) now := by
  intro j
  by_cases hj : j = id
  · subst hj
    exact Or.inr ⟨p, dbLookup_dbSet_self db j p, hp⟩
  · exact Or.inl (dbLookup_dbSet_ne db id j p hj)

theorem findIdx?_eq_none_of_forall (l : List Note) (nid : String)
    (h : ∀ m ∈ l, m.id ≠ nid) : l.findIdx? (fun n => n.id = nid) = none := by
  rw [List.findIdx?_eq_none_iff]
  intro m hm
  simpa using h m hm

/-! ### Claim C3 — append to a missing project -/

/-- C3: for a project id not in the store, `addNoteToProject` returns
`null` and leaves the store unchanged — no project is auto-created on
the append path. -/
theorem addNote_unknown_project (now : Nat) (db : DB) (pid : String) (note : Note)
    (h : dbLookup db pid = none) :
    addNoteToProject now db pid note = (none, db) := by
  simp [addNoteToProject, h]

/-- C3 witness, following Scenario D: create `"Site A"`, then append to
an id that was never created. -/
theorem addNote_unknown_project_witness :
    dbLookup (createProject 1 [] "p-site-a" "Site A" none).2 "nope" = none ∧
      addNoteToProject 2 (createProject 1 [] "p-site-a" "Site A" none).2 "nope"
          { id := "n1", timestamp := 2 } =
        (none, (createProject 1 [] "p-site-a" "Site A" none).2) :=
  ⟨by decide, addNote_unknown_project 2 _ "nope" _ (by decide)⟩

/-! ### Claim C10 — removing a note id that is not present -/

/-- C10: for an existing project and a note id not among its notes,
`removeNoteFromProject` returns `null` and the store — in particular
the project and its `lastActivity` — is completely unchanged. -/
theorem removeNote_unknown_note (now : Nat) (db : DB) (pid nid : String)
    (p : Project) (hp : dbLookup db pid = some p)
    (h : ∀ m ∈ p.notes, m.id ≠ nid) :
    removeNoteFromProject now db pid nid = (none, db) := by
  simp [removeNoteFromProject, hp, findIdx?_eq_none_of_forall p.notes nid h]

/-- C10 witness: a store with one project holding one note, removal of
an absent note id. -/
theorem removeNote_unknown_note_witness :
    removeNoteFromProject 9
        [("p1", { id := "p1", name := "P", notes := [{ id := "n1", timestamp := 3 }],
                  createdAt := 1, lastActivity := 3 })] "p1" "ghost" =
      (none,
        [("p1", { id := "p1", name := "P", notes := [{ id := "n1", timestamp := 3 }],
                  createdAt := 1, lastActivity := 3 })]) :=
  removeNote_unknown_note 9 _ "p1" "ghost"
    { id := "p1", name := "P", notes := [{ id := "n1", timestamp := 3 }],
      createdAt := 1, lastActivity := 3 }
    (by decide) (by decide)

/-! ### Claim C4 — note mutations refresh `lastActivity` atomically -/

/-- C4: assuming the store invariant and a clock at or after every
stored `createdAt`, each of the three note mutations (append, remove,
update-note) (i) preserves `lastActivity ≥ createdAt` for every stored
project, (ii) changes every project binding either not at all or to one
carrying `lastActivity = now` (no state shows a mutated notes sequence
without the refreshed `lastActivity`), and (iii) on success yields, in
the same step, the mutated project with `lastActivity = now` readable
from the store. -/
theorem note_mutations_refresh_lastActivity (now : Nat) (db : DB)
    (pid nid : String) (note : Note) (upd : Note → Note)
    (hWF : StoreWF db) (hLe : CreatedLe db now) :
    (StoreWF (addNoteToProject now db pid note).2 ∧
      RefreshedOrUnchanged db (addNoteToProject now db pid note).2 now ∧
      ∀ p p', dbLookup db pid = some p →
        (addNoteToProject now db pid note).1 = some p' →
        p'.notes = p.notes ++ [note] ∧ p'.lastActivity = now ∧
          dbLookup (addNoteToProject now db pid note).2 pid = some p') ∧
    (StoreWF (removeNoteFromProject now db pid nid).2 ∧
      RefreshedOrUnchanged db (removeNoteFromProject now db pid nid).2 now ∧
      ∀ p', (removeNoteFromProject now db pid nid).1 = some p' →
        p'.lastActivity = now ∧
          dbLookup (removeNoteFromProject now db pid nid).2 pid = some p') ∧
    (StoreWF (updateNote now db pid nid upd).2 ∧
      RefreshedOrUnchanged db (updateNote now db pid nid upd).2 now ∧
      ((updateNote now db pid nid upd).1.isSome →
        ∃ q, dbLookup (updateNote now db pid nid upd).2 pid = some q ∧
          q.lastActivity = now)) ∧
    (∀ fresh name descr, StoreWF (createProject now db fresh name descr).2) ∧
    StoreWF (getProject_data now db pid).2 := by
  have hcreated : ∀ p, dbLookup db pid = some p → p.createdAt ≤ now := by
    intro p hp
    obtain ⟨e, he, -, he2⟩ := dbLookup_mem db pid p hp
    exact he2 ▸ hLe e he
  refine ⟨?_, ?_, ?_, ?_, ?_⟩
  · cases hp : dbLookup db pid with
    | none =>
      have hop : addNoteToProject now db pid note = (none, db) := by
        simp [addNoteToProject, hp]
      rw [hop]
      refine ⟨hWF, fun j => Or.inl rfl, ?_⟩
      intro p p' hps _
      cases hps
    | some p =>
      have hop : addNoteToProject now db pid note =
          (some { p with notes := p.notes ++ [note], lastActivity := now },
            dbSet db pid { p with notes := p.notes ++ [note], lastActivity := now }) := by
        simp [addNoteToProject, hp]
      rw [hop]
      refine ⟨storeWF_dbSet db pid _ hWF (hcreated p hp),
        refreshedOrUnchanged_dbSet db pid _ rfl, ?_⟩
      intro q p' hq hp'
      cases hq
      cases hp'
      exact ⟨rfl, rfl, dbLookup_dbSet_self db pid _⟩
  · cases hp : dbLookup db pid with
    | none =>
      have hop : removeNoteFromProject now db pid nid = (none, db) := by
        simp [removeNoteFromProject, hp]
      rw [hop]
      refine ⟨hWF, fun j => Or.inl rfl, ?_⟩
      intro p' hp'
      cases hp'
    | some p =>
      cases hi : p.notes.findIdx? (fun n => n.id = nid) with
      | none =>
        have hop : removeNoteFromProject now db pid nid = (none, db) := by
          simp [removeNoteFromProject, hp, hi]
        rw [hop]
        refine ⟨hWF, fun j => Or.inl rfl, ?_⟩
        intro p' hp'
        cases hp'
      | some i =>
        have hop : removeNoteFromProject now db pid nid =
            (some { p with notes := p.notes.eraseIdx i, lastActivity := now },
              dbSet db pid { p with notes := p.notes.eraseIdx i, lastActivity := now }) := by
          simp [removeNoteFromProject, hp, hi]
        rw [hop]
        refine ⟨storeWF_dbSet db pid _ hWF (hcreated p hp),
          refreshedOrUnchanged_dbSet db pid _ rfl, ?_⟩
        intro p' hp'
        cases hp'
        exact ⟨rfl, dbLookup_dbSet_self db pid _⟩
  · cases hp : dbLookup db pid with
    | none =>
      have hop : updateNote now db pid nid upd = (none, db) := by
        simp [updateNote, hp]
      rw [hop]
      refine ⟨hWF, fun j => Or.inl rfl, ?_⟩
      intro hs
      cases hs
    | some p =>
      cases hi : p.notes.findIdx? (fun n => n.id = nid) with
      | none =>
        have hop : updateNote now db pid nid upd = (none, db) := by
          simp [updateNote, hp, hi]
        rw [hop]
        refine ⟨hWF, fun j => Or.inl rfl, ?_⟩
        intro hs
        cases hs
      | some i =>
        have hop : updateNote now db pid nid upd =
            (some (upd (p.notes.getD i default)),
              dbSet db pid
                { p with
                  notes := p.notes.set i (upd (p.notes.getD i default))
                  lastActivity := now }) := by
          simp [updateNote, hp, hi]
        rw [hop]
        refine ⟨storeWF_dbSet db pid _ hWF (hcreated p hp),
          refreshedOrUnchanged_dbSet db pid _ rfl, ?_⟩
        intro _
        exact ⟨_, dbLookup_dbSet_self db pid _, rfl⟩
  · intro fresh name descr
    exact storeWF_dbSet db fresh _ hWF le_rfl
  · unfold getProject_data
    by_cases h : (dbLookup db pid).isSome
    · simpa [h] using hWF
    · simp only [h, if_false, Bool.false_eq_true, ite_false]
      exact storeWF_dbSet db pid _ hWF le_rfl

theorem getProject_data_fst_isSome (now : Nat) (db : DB) (id : String) :
    (getProject_data now db id).1.isSome = true := by
  unfold getProject_data
  by_cases h : (dbLookup db id).isSome
  · simp [h]
  · simp [h, dbLookup_dbSet_self]

/-- C4 witness: the invariant hypotheses hold for a concrete one-project
store and the append branch's conclusions follow by applying the
theorem there. -/
theorem note_mutations_refresh_lastActivity_witness :
    StoreWF [("p1", { id := "p1", name := "P", notes := [],
                      createdAt := 1, lastActivity := 1 })] ∧
    CreatedLe [("p1", { id := "p1", name := "P", notes := [],
                        createdAt := 1, lastActivity := 1 })] 7 ∧
    StoreWF (addNoteToProject 7
      [("p1", { id := "p1", name := "P", notes := [],
                createdAt := 1, lastActivity := 1 })] "p1"
      { id := "n1", timestamp := 7 }).2 :=
  ⟨by decide, by decide,
    (note_mutations_refresh_lastActivity 7
      [("p1", { id := "p1", name := "P", notes := [],
                createdAt := 1, lastActivity := 1 })] "p1" "x"
      { id := "n1", timestamp := 7 } id (by decide) (by decide)).1.1⟩

/-! ### Claim C2 — client-transcript short-circuit -/

/-- C2, amended: in the `part_004` handler a present, non-empty client
transcript yields a synthetic successful transcription result carrying
the supplied text, and that handler never invokes the external
transcription process on any input (it also uses the synthetic result
when no transcript is supplied); the `upload.ts` handler, by contrast,
ignores the client transcript and always invokes the external process
(see the counterexample). -/
theorem part004_client_transcript_short_circuit (ct : String) (d : Option ℚ)
    (now : Nat) (isProd : Bool) (db : DB) (req : UploadReq) (pdf : PdfOutcome)
    (h : ct ≠ "") :
    (clientTranscriptionResult (some ct) d).success = true ∧
    (clientTranscriptionResult (some ct) d).text = some ct ∧
    (handlerPost_part004 now isProd db req pdf).2.2 = false := by
  refine ⟨rfl, rfl, ?_⟩
  unfold handlerPost_part004
  dsimp only
  repeat' split
  all_goals rfl

/-- C2 witness: instantiation at the Scenario A transcript. -/
theorem part004_client_transcript_short_circuit_witness :
    ("hello world this is a test" ≠ "") ∧
    (clientTranscriptionResult (some "hello world this is a test") none).text =
      some "hello world this is a test" ∧
    (handlerPost_part004 3 false []
        { projectId := none, bodyTranscription := some "hello world this is a test",
          bodyDuration := none, audio := none, images := [] }
        (.err "x")).2.2 = false := by
  have h := part004_client_transcript_short_circuit "hello world this is a test" none
    3 false []
    { projectId := none, bodyTranscription := some "hello world this is a test",
      bodyDuration := none, audio := none, images := [] }
    (.err "x") (by decide)
  exact ⟨by decide, h.2.1, h.2.2⟩

/-- C2, counterexample: a valid request whose client transcript is the
present, non-empty `"hello world"` still makes the `upload.ts` handler
invoke the external transcription process. -/
theorem upload_ignores_client_transcript :
    (handlerPost_upload 3
        [("p1", { id := "p1", name := "P", notes := [], createdAt := 1, lastActivity := 1 })]
        { projectId := some "p1", bodyTranscription := some "hello world",
          bodyDuration := none, audio := some { path := "a.webm", existsOnDisk := true },
          images := [] }
        (.ok { success := true, text := some "external text" }) (.err "no pdf")).2.2 = true := by
  decide

/-! ### Claim C9 — read-path auto-create makes "Project not found" unreachable -/

theorem getProject_data_fst_eq (now : Nat) (db : DB) (id : String) :
    (getProject_data now db id).1 = dbLookup (getProject_data now db id).2 id := rfl

/-- C9: the `upload.ts` pipeline's project-existence check never fails —
the handler never returns the 404 "Project not found" response — and
for an unknown id `getProject` silently materializes a placeholder
project named `"Project <id>"` with no notes into the store. -/
theorem upload_project_check_never_fails (now : Nat) (db : DB) (id : String)
    (req : UploadReq) (tr : TrOutcome) (pdf : PdfOutcome) :
    (∀ m, (handlerPost_upload now db req tr pdf).1 ≠ .notFound m) ∧
    (dbLookup db id = none →
      getProject_data now db id =
        (some { id := id, name := "Project " ++ id, notes := [],
                createdAt := now, lastActivity := now },
          dbSet db id { id := id, name := "Project " ++ id, notes := [],
                        createdAt := now, lastActivity := now }) ∧
      dbLookup (getProject_data now db id).2 id =
        some { id := id, name := "Project " ++ id, notes := [],
               createdAt := now, lastActivity := now }) := by
  constructor
  · intro m
    unfold handlerPost_upload
    cases hpj : req.projectId with
    | none => simp
    | some pid =>
      dsimp only
      cases hgp : getProject_data now db pid with
      | mk a db1 =>
        cases a with
        | none =>
          have h2 := getProject_data_fst_isSome now db pid
          rw [hgp] at h2
          simp at h2
        | some project =>
          dsimp only
          repeat' split
          all_goals simp
  · intro h
    have hnot : (dbLookup db id).isSome = false := by rw [h]; rfl
    have hgp : getProject_data now db id =
        (some { id := id, name := "Project " ++ id, notes := [],
                createdAt := now, lastActivity := now },
          dbSet db id { id := id, name := "Project " ++ id, notes := [],
                        createdAt := now, lastActivity := now }) := by
      unfold getProject_data
      rw [hnot]
      simp [dbLookup_dbSet_self]
    refine ⟨hgp, ?_⟩
    rw [hgp]
    exact dbLookup_dbSet_self db id _

/-- C9 witness: the empty store and the id `"new-site"`. -/
theorem upload_project_check_never_fails_witness :
    ((handlerPost_upload 4 []
          { projectId := none, bodyTranscription := none,
            bodyDuration := none, audio := none, images := [] }
          (.err "t") (.err "p")).1 ≠ .notFound "Project not found") ∧
    dbLookup ([] : DB) "new-site" = none ∧
    getProject_data 4 [] "new-site" =
      (some { id := "new-site", name := "Project new-site", notes := [],
              createdAt := 4, lastActivity := 4 },
        dbSet [] "new-site"
          { id := "new-site", name := "Project new-site", notes := [],
            createdAt := 4, lastActivity := 4 }) := by
  have h := upload_project_check_never_fails 4 [] "new-site"
    { projectId := none, bodyTranscription := none, bodyDuration := none,
      audio := none, images := [] } (.err "t") (.err "p")
  exact ⟨h.1 "Project not found", by decide, (h.2 (by decide)).1⟩

/-! ### Claim C6 — PDF failure is non-fatal after persistence -/

/-- C6: when validation passes (a present, non-empty project id and an
audio file on disk), transcription succeeds, and the note is appended,
a failure of PDF generation does not fail the request: the `upload.ts`
handler still responds `ok` with the persisted note and an empty report
reference, and the note is retrievable from the resulting store by
`getNote`.  (Freshness of the note id among the project's existing
notes makes `getNote` return this note.) -/
theorem pdf_failure_nonfatal (now : Nat) (db : DB) (pid : String)
    (af : UploadedFile) (req : UploadReq) (r : TranscriptionResult) (e : String)
    (p0 : Project)
    (hpid : req.projectId = some pid) (hpid0 : pid ≠ "")
    (haudio : req.audio = some af)
    (hex : af.existsOnDisk = true)
    (hg : (getProject_data now db pid).1 = some p0)
    (hfresh : ∀ m ∈ p0.notes, m.id ≠ toString now) :
    (handlerPost_upload now db req (.ok r) (.err e)).1 =
      .ok (createNote_upload now af.path (req.images.map (·.path)) r) "" ∧
    getNote (handlerPost_upload now db req (.ok r) (.err e)).2.1 pid
        (createNote_upload now af.path (req.images.map (·.path)) r).id =
      some (createNote_upload now af.path (req.images.map (·.path)) r) := by
  cases hx : getProject_data now db pid with
  | mk a db1 =>
    have ha : a = some p0 := by rw [hx] at hg; exact hg
    subst ha
    have hlook : dbLookup db1 pid = some p0 := by
      have := getProject_data_fst_eq now db pid
      rw [hx] at this
      exact this.symm
    have hadd : addNoteToProject now db1 pid
        (createNote_upload now af.path (req.images.map (·.path)) r) =
        (some { p0 with
                notes := p0.notes ++
                  [createNote_upload now af.path (req.images.map (·.path)) r],
                lastActivity := now },
          dbSet db1 pid
            { p0 with
              notes := p0.notes ++
                [createNote_upload now af.path (req.images.map (·.path)) r],
              lastActivity := now }) := by
      simp [addNoteToProject, hlook]
    have hrun : handlerPost_upload now db req (.ok r) (.err e) =
        (.ok (createNote_upload now af.path (req.images.map (·.path)) r) "",
          dbSet db1 pid
            { p0 with
              notes := p0.notes ++
                [createNote_upload now af.path (req.images.map (·.path)) r],
              lastActivity := now },
          true) := by
      unfold handlerPost_upload
      rw [hpid]
      dsimp only
      rw [if_neg hpid0]
      rw [hx]
      dsimp only
      rw [haudio]
      dsimp only
      rw [if_pos hex]
      rw [hadd]
    rw [hrun]
    refine ⟨rfl, ?_⟩
    unfold getNote
    rw [dbLookup_dbSet_self]
    dsimp only
    rw [List.find?_append]
    have hnone : p0.notes.find?
        (fun n => n.id = (createNote_upload now af.path (req.images.map (·.path)) r).id) =
        none := by
      rw [List.find?_eq_none]
      intro m hm
      simpa [createNote_upload] using hfresh m hm
    rw [hnone]
    rw [List.find?_cons_of_pos _ (by simp)]
    rfl

/-- C6 witness, following Scenario C on the empty store (the project is
auto-created by the read-path check, the PDF step rejects). -/
theorem pdf_failure_nonfatal_witness :
    (handlerPost_upload 3 []
        { projectId := some "p1", bodyTranscription := none, bodyDuration := none,
          audio := some { path := "a.webm", existsOnDisk := true }, images := [] }
        (.ok { success := true, text := some "site walkthrough" }) (.err "boom")).1 =
      .ok (createNote_upload 3 "a.webm" []
        { success := true, text := some "site walkthrough" }) "" ∧
    getNote (handlerPost_upload 3 []
        { projectId := some "p1", bodyTranscription := none, bodyDuration := none,
          audio := some { path := "a.webm", existsOnDisk := true }, images := [] }
        (.ok { success := true, text := some "site walkthrough" }) (.err "boom")).2.1 "p1"
        (createNote_upload 3 "a.webm" []
          { success := true, text := some "site walkthrough" }).id =
      some (createNote_upload 3 "a.webm" []
        { success := true, text := some "site walkthrough" }) :=
  pdf_failure_nonfatal 3 [] "p1" { path := "a.webm", existsOnDisk := true }
    { projectId := some "p1", bodyTranscription := none, bodyDuration := none,
      audio := some { path := "a.webm", existsOnDisk := true }, images := [] }
    { success := true, text := some "site walkthrough" } "boom"
    { id := "p1", name := "Project p1", notes := [], createdAt := 3, lastActivity := 3 }
    rfl (by decide) rfl rfl (by decide) (by decide)

/-- C5, counterexample: a run that exits successfully only at twice the
5-minute limit — `part_005`'s `transcribeAudio` still resolves it with
the successful result, instead of the timeout failure the claim
requires for every invocation exceeding the limit. -/
theorem part005_late_run_still_succeeds :
    (transcribeAudio_part005
        { exit := some (2 * timeoutMs, 0),
          parsed := some { success := true, text := some "late but fine" },
          stderr := "" }).1 =
      .resolved { success := true, text := some "late but fine" } := by decide

/-- C5, amended: the `upload.ts` `transcribeAudio` enforces the
5-minute wall-clock timeout — an invocation whose process has not
completed strictly before the limit rejects with the timeout error,
never resolves, and does not leave the process running (the timer kills
it); the `part_005` variant has no timeout at all (see the
counterexample). -/
theorem upload_transcribe_timeout (run : ProcRun)
    (h : completedBefore run timeoutMs = false) :
    transcribeAudio_upload run =
      (.rejected "Transcription timed out after 5 minutes", false) := by
  cases hx : run.exit with
  | none => unfold transcribeAudio_upload; rw [hx]
  | some tc =>
    obtain ⟨t, code⟩ := tc
    have hnot : ¬ t < timeoutMs := by
      unfold completedBefore at h
      rw [hx] at h
      simpa using h
    unfold transcribeAudio_upload
    rw [hx]
    simp [hnot]

/-- C5 witness: a process that exits successfully only at twice the
limit — `upload.ts` rejects it with the timeout error and kills it. -/
theorem upload_transcribe_timeout_witness :
    completedBefore
        { exit := some (2 * timeoutMs, 0),
          parsed := some { success := true, text := some "late but fine" },
          stderr := "" } timeoutMs = false ∧
    transcribeAudio_upload
        { exit := some (2 * timeoutMs, 0),
          parsed := some { success := true, text := some "late but fine" },
          stderr := "" } =
      (.rejected "Transcription timed out after 5 minutes", false) :=
  ⟨by decide, upload_transcribe_timeout _ (by decide)⟩

end Ledcor
